import Mathlib

/-!
Shallow embedding of the comparison engine of comparacao_ativos.py and of the
fixed-income retrieval layer of renda_fixa_br.py.

Modelling conventions:
* dates are natural numbers (a day count); a (date, value) series is a
  List (Nat × Rat) and the TimeSeries invariant (strictly increasing dates)
  appears as a List.Pairwise hypothesis where a theorem needs it;
* prices and rates are rationals;
* a float NaN is modelled as `none : Option Rat` where NaN can actually occur
  (the exchange-rate alignment);
* raised exceptions are modelled as `Except`/`Option` error values; the
  behaviour of a remote source is passed in as an explicit argument so that a
  theorem can quantify over every behaviour of the source.
-/

/-- Inner join of two (date, value) series on their dates, in the order of the
first series.  This models building `pd.DataFrame` from the two Series followed
by `.dropna()` (comparacao_ativos.py lines 258-261 and 314-317); for series
with strictly increasing dates it is exactly the pandas inner join, sorted. -/
def alinhar (r1 r2 : List (Nat × Rat)) : List (Nat × Rat × Rat) :=
  r1.filterMap (fun p => (r2.lookup p.1).map (fun b => (p.1, p.2, b)))

/-- The scan loop of `encontrar_janelas_superacao` (comparacao_ativos.py lines
269-298).  The Python loop walks the aligned frame with state `em_superacao`
(Bool) and `inicio_idx` (Optional index); here `inicioData` stores the date at
that index (`retornos_alinhados.index[inicio_idx]`) and `anterior` carries the
previous row, which the source reads as `retornos_alinhados.iloc[i-1]`; on
exhaustion `anterior` is the last row, which the source reads as `iloc[-1]` /
`index[-1]`.  A closed run appends `(index[inicio_idx], data, iloc[i-1].ativo1,
iloc[i-1].ativo2)` where `data` is the current (run-breaking) date; a run still
open at the end appends `(index[inicio_idx], index[-1], iloc[-1].ativo1,
iloc[-1].ativo2)`. -/
def janelasGo : List (Nat × Rat × Rat) → Bool → Option Nat → Option (Nat × Rat × Rat) →
    List (Nat × Nat × Rat × Rat)
  | [], emSuperacao, inicioData, anterior =>
    if emSuperacao then
      match inicioData, anterior with
      | some s, some u => [(s, u.1, u.2.1, u.2.2)]
      | _, _ => []
    else []
  | (d, a, b) :: resto, emSuperacao, inicioData, anterior =>
    if b > a then
      if emSuperacao then janelasGo resto true inicioData (some (d, a, b))
      else janelasGo resto true (some d) (some (d, a, b))
    else
      if emSuperacao then
        match inicioData, anterior with
        | some s, some u =>
          (s, d, u.2.1, u.2.2) :: janelasGo resto false none (some (d, a, b))
        | _, _ => janelasGo resto false none (some (d, a, b))
      else janelasGo resto emSuperacao inicioData (some (d, a, b))

/-- `encontrar_janelas_superacao(retornos1, retornos2, janela_meses)`
(comparacao_ativos.py lines 245-300): align the two return series, return `[]`
on an empty join, otherwise scan for maximal runs where ativo2 > ativo1.  The
binding `diasJanela := janela_meses * 21` (line 273) is kept because the source
computes it, although nothing afterwards uses it. -/
def encontrar_janelas_superacao (retornos1 retornos2 : List (Nat × Rat))
    (janelaMeses : Nat) : List (Nat × Nat × Rat × Rat) :=
  let alinhados := alinhar retornos1 retornos2
  if alinhados.isEmpty then []
  else
    let diasJanela := janelaMeses * 21
    janelasGo alinhados false none none

/-- The scan loop of `encontrar_periodos_superacao` (comparacao_ativos.py lines
322-340).  State `inicio` is the start date of the open run (the source stores
the date itself); `anterior` carries the previous date, which the source reads
as `df_comparacao.index[i-1]` when a run closes and as `index[-1]` at the end.
A closed run appends `(inicio, index[i-1], (fim - inicio).days + 1)`. -/
def periodosGo : List (Nat × Rat × Rat) → Option Nat → Option Nat →
    List (Nat × Nat × Int)
  | [], some s, some f => [(s, f, (f : Int) - (s : Int) + 1)]
  | [], some _, none => []
  | [], none, some _ => []
  | [], none, none => []
  | (d, a, b) :: resto, none, some _ =>
    if b > a then periodosGo resto (some d) (some d)
    else periodosGo resto none (some d)
  | (d, a, b) :: resto, none, none =>
    if b > a then periodosGo resto (some d) (some d)
    else periodosGo resto none (some d)
  | (d, a, b) :: resto, some s, some f =>
    if b > a then periodosGo resto (some s) (some d)
    else (s, f, (f : Int) - (s : Int) + 1) :: periodosGo resto none (some d)
  | (d, a, b) :: resto, some s, none =>
    if b > a then periodosGo resto (some s) (some d)
    else periodosGo resto none (some d)

/-- `encontrar_periodos_superacao(var_ativo1, var_ativo2)` (comparacao_ativos.py
lines 302-342): align, then scan for maximal runs where ativo2 > ativo1. -/
def encontrar_periodos_superacao (var1 var2 : List (Nat × Rat)) :
    List (Nat × Nat × Int) :=
  periodosGo (alinhar var1 var2) none none

/-- `calcular_variacao_percentual(dados)` (comparacao_ativos.py lines 177-204)
restricted to a frame that has a Close column; the input list is the Close
series.  `none` models the IndexError that `coluna_close.iloc[0]` raises on an
empty series. -/
def calcular_variacao_percentual (dados : List (Nat × Rat)) :
    Option (List (Nat × Rat)) :=
  match dados with
  | [] => none
  | (_, c0) :: _ => some (dados.map (fun p => (p.1, (p.2 - c0) / c0 * 100)))

/-- `calcular_retorno_janela(dados, janela_meses)` (comparacao_ativos.py lines
206-243) restricted to a frame that has a Close column; the input list is the
Close series.  `dias_janela = janela_meses * 21`; for each
`i in range(len - dias_janela)` the return between `iloc[i]` and
`iloc[i + dias_janela]` is emitted, keyed by `index[i + dias_janela]`. -/
def calcular_retorno_janela (dados : List (Nat × Rat)) (janelaMeses : Nat) :
    List (Nat × Rat) :=
  let diasJanela := janelaMeses * 21
  (List.range (dados.length - diasJanela)).map (fun i =>
    let precoInicial := (dados.getD i (0, 0)).2
    let precoFinal := (dados.getD (i + diasJanela) (0, 0)).2
    ((dados.getD (i + diasJanela) (0, 0)).1,
      (precoFinal - precoInicial) / precoInicial * 100))

/-- One row of a yfinance-style frame: the columns touched by
`converter_usd_para_brl`.  Each price field is `Option Rat` so that a NaN
produced by multiplying with a missing exchange rate is representable. -/
structure Linha where
  Open : Option Rat
  High : Option Rat
  Low : Option Rat
  Close : Option Rat
  AdjClose : Option Rat
  Volume : Option Rat
deriving DecidableEq, Repr

/-- Multiplication lifted to `Option Rat`; `none` (NaN) is absorbing, matching
IEEE float behaviour of the pandas column multiply. -/
def multOpcao (x y : Option Rat) : Option Rat :=
  match x, y with
  | some a, some b => some (a * b)
  | _, _ => none

/-- Scale the five price columns of a row by a rate, leaving Volume alone,
matching the column loop of comparacao_ativos.py lines 156-163 (and the
analogous loop at lines 125-127). -/
def escalarLinha (taxa : Option Rat) (r : Linha) : Linha :=
  { Open := multOpcao r.Open taxa
    High := multOpcao r.High taxa
    Low := multOpcao r.Low taxa
    Close := multOpcao r.Close taxa
    AdjClose := multOpcao r.AdjClose taxa
    Volume := r.Volume }

/-- Forward fill with an explicit carry, modelling `Series.ffill()`. -/
def ffillCom : Option Rat → List (Option Rat) → List (Option Rat)
  | _, [] => []
  | carry, x :: xs =>
    match x with
    | some v => some v :: ffillCom (some v) xs
    | none => carry :: ffillCom carry xs

/-- `Series.ffill()`: propagate the last seen value forward over gaps. -/
def ffill (l : List (Option Rat)) : List (Option Rat) := ffillCom none l

/-- `Series.bfill()`: fill each gap with the next seen value. -/
def bfill : List (Option Rat) → List (Option Rat)
  | [] => []
  | x :: xs =>
    let resto := bfill xs
    (match x with
     | some v => some v
     | none => resto.headD none) :: resto

/-- One remote call of the exchange-rate source: it either raises or returns a
(date, Close) list, where `[]` is an empty frame. -/
inductive Busca where
  | levantou : Busca
  | devolveu : List (Nat × Rat) → Busca
deriving DecidableEq

/-- The two calls `converter_usd_para_brl` can make: the historical range fetch
of BRL=X (line 114) and the most-recent-rate fetch with period 1d (line 119). -/
structure FonteCambio where
  faixa : Busca
  atual : Busca

/-- `taxa_cambio.reindex(dados_usd.index)` followed by `.ffill()` and
`.bfill()` (comparacao_ativos.py lines 149-153): exact-date lookup onto the
input calendar, then forward fill, then backward fill. -/
def taxasAlinhadas (dadosUsd : List (Nat × Linha)) (cambio : List (Nat × Rat)) :
    List (Option Rat) :=
  bfill (ffill (dadosUsd.map (fun p => cambio.lookup p.1)))

/-- The body of the `try` block of `converter_usd_para_brl` (lines 110-168).
An `Except.error` is a raised exception: either a modelled raise of the
exchange-rate source itself or the explicit
`raise ValueError("Não foi possível obter taxas de câmbio")` at line 130. -/
def converterInterno (dadosUsd : List (Nat × Linha)) (fonte : FonteCambio) :
    Except String (List (Nat × Linha)) :=
  match fonte.faixa with
  | .levantou => .error "falha ao baixar cambio"
  | .devolveu cambio =>
    if cambio.isEmpty then
      match fonte.atual with
      | .levantou => .error "falha ao baixar cambio atual"
      | .devolveu cambioAtual =>
        if cambioAtual.isEmpty then .error "Nao foi possivel obter taxas de cambio"
        else
          let taxaFixa := (cambioAtual.getLastD (0, 0)).2
          .ok (dadosUsd.map (fun p => (p.1, escalarLinha (some taxaFixa) p.2)))
    else
      .ok ((dadosUsd.zip (taxasAlinhadas dadosUsd cambio)).map
        (fun q => (q.1.1, escalarLinha q.2 q.1.2)))

/-- `converter_usd_para_brl(dados_usd, ...)` (comparacao_ativos.py lines
98-175): the whole body is wrapped in try/except and the except branch returns
the input series unmodified (line 175), so the function as a whole is total. -/
def converter_usd_para_brl (dadosUsd : List (Nat × Linha)) (fonte : FonteCambio) :
    List (Nat × Linha) :=
  match converterInterno dadosUsd fonte with
  | .ok r => r
  | .error _ => dadosUsd

/-- One attempt of `yf.download` inside `obter_dados_ativo`: it either raises
an exception carrying a message, or returns a frame (here: a (date, Close)
list, `[]` being an empty frame). -/
inductive Tentativa where
  | levantou : String → Tentativa
  | devolveu : List (Nat × Rat) → Tentativa
deriving DecidableEq

/-- Observable side effects of the retry loop: a download attempt number, or a
`time.sleep` of a number of seconds. -/
inductive Evento where
  | consulta : Nat → Evento
  | espera : Nat → Evento
deriving DecidableEq

/-- The retry loop of `obter_dados_ativo` (comparacao_ativos.py lines 43-70):
`for tentativa in range(3)`, argument `t` is the attempt number and `restantes`
the attempts left.  A non-empty frame returns immediately; an empty frame falls
through to the next iteration with no sleep; an exception sleeps 2 seconds and
retries unless it happened on the last attempt (then the loop breaks).  The
first component records the attempts made and sleeps performed, the second is
`some` data or `none` when the loop falls through to line 73. -/
def buscaYahoo (b : Nat → Tentativa) : Nat → Nat →
    List Evento × Option (List (Nat × Rat))
  | _, 0 => ([], none)
  | t, restantes + 1 =>
    match b t with
    | .devolveu dados =>
      if dados.isEmpty then
        let r := buscaYahoo b (t + 1) restantes
        (.consulta t :: r.1, r.2)
      else ([.consulta t], some dados)
    | .levantou _ =>
      if restantes = 0 then ([.consulta t], none)
      else
        let r := buscaYahoo b (t + 1) restantes
        (.consulta t :: .espera 2 :: r.1, r.2)

/-- Whether the needle list is a prefix of the haystack list. -/
def comecaCom : List Char → List Char → Bool
  | [], _ => true
  | _ :: _, [] => false
  | a :: as, c :: cs => a == c && comecaCom as cs

/-- Substring search on character lists. -/
def contemAux : List Char → List Char → Bool
  | agulha, [] => agulha.isEmpty
  | agulha, c :: resto => comecaCom agulha (c :: resto) || contemAux agulha resto

/-- Python `sub in s`. -/
def contem (s sub : String) : Bool := contemAux sub.data s.data

/-- Python `s.lower()` (ASCII, which is all the checked keywords use). -/
def minusculas (s : String) : String := ⟨s.data.map Char.toLower⟩

/-- The message of the `raise ValueError` at comparacao_ativos.py line 73
(accents and quotes dropped). -/
def msgNaoEncontrado (ticker : String) : String :=
  "Ticker " ++ ticker ++ " nao encontrado ou sem dados disponiveis"

/-- The best-effort classification of the outer except handler
(comparacao_ativos.py lines 75-96): substring checks on the error text select
one of three ValueError messages (texts abridged, branch structure exact). -/
def classificaErro (ticker msg : String) : String :=
  if contem msg "404" || contem msg "Not Found" || contem msg "delisted" then
    "Ticker " ++ ticker ++ " nao encontrado no Yahoo Finance"
  else if contem msg "ConnectionError" || contem msg "Failed to connect" ||
      contem (minusculas msg) "timeout" then
    "Erro de conexao ao buscar " ++ ticker
  else
    "Erro ao obter dados para " ++ ticker ++ ": " ++ msg

/-- The Yahoo branch of `obter_dados_ativo(ticker, ...)` (comparacao_ativos.py
lines 39-96), parameterised by the behaviour `b` of `yf.download` per attempt.
If no attempt returned a non-empty frame, line 73 raises the not-found
ValueError, which the outer handler catches and re-raises classified; the
result is an `Except.error`, never an escaped exception. -/
def obter_dados_ativo (ticker : String) (b : Nat → Tentativa) :
    Except String (List (Nat × Rat)) :=
  match (buscaYahoo b 0 3).2 with
  | some dados => .ok dados
  | none => .error (classificaErro ticker (msgNaoEncontrado ticker))

/-- The attempts and sleeps `obter_dados_ativo` performs for behaviour `b`. -/
def eventosBusca (b : Nat → Tentativa) : List Evento := (buscaYahoo b 0 3).1

/-- An ideal (span-unlimited) rate-series source over a fixed ground truth
list: a query returns exactly the observations whose dates fall in the
inclusive range.  Modelled from the spec section 6: the BCB lookup returns the
{date, value} rows of the requested range. -/
def consultaIdeal (base : List (Nat × Rat)) (dataInicial dataFinal : Nat) :
    List (Nat × Rat) :=
  base.filter (fun p => dataInicial ≤ p.1 && p.1 ≤ dataFinal)

/-- The pagination loop of `_buscar_serie_bcb` (renda_fixa_br.py lines 59-119):
while `data_atual < data_fim`, fetch the slice
`[data_atual, min(data_atual + 365*5 days, data_fim)]` and continue from the
day after the slice end.  `consulta` is the per-slice query. -/
def segmentosBcb (consulta : Nat → Nat → List (Nat × Rat)) (dataAtual dataFim : Nat) :
    List (Nat × Rat) :=
  if dataAtual < dataFim then
    let fimFatia := min (dataAtual + 1825) dataFim
    consulta dataAtual fimFatia ++ segmentosBcb consulta (fimFatia + 1) dataFim
  else []
termination_by dataFim - dataAtual
decreasing_by omega

/-- Stable insertion into a date-sorted list. -/
def insereOrdenado (p : Nat × Rat) : List (Nat × Rat) → List (Nat × Rat)
  | [] => [p]
  | q :: resto => if p.1 ≤ q.1 then p :: q :: resto else q :: insereOrdenado p resto

/-- `df.sort_index()` on the consolidated frame (renda_fixa_br.py line 134). -/
def ordenaPorData : List (Nat × Rat) → List (Nat × Rat)
  | [] => []
  | p :: resto => insereOrdenado p (ordenaPorData resto)

/-- `df[~df.index.duplicated(keep='first')]` (renda_fixa_br.py line 136):
drop every row whose date was already seen earlier in the list. -/
def removeDatasDuplicadas : List (Nat × Rat) → List Nat → List (Nat × Rat)
  | [], _ => []
  | p :: resto, vistas =>
    if vistas.contains p.1 then removeDatasDuplicadas resto vistas
    else p :: removeDatasDuplicadas resto (p.1 :: vistas)

/-- `_buscar_serie_bcb(serie_codigo, data_inicio, data_fim)` (renda_fixa_br.py
lines 47-145): run the paginated loop, return an empty frame if nothing came
back, otherwise sort ascending by date and drop duplicate dates keeping the
first occurrence.  (The to_datetime/to_numeric/dropna steps are identities in
this model because dates and values are already typed.) -/
def buscar_serie_bcb (consulta : Nat → Nat → List (Nat × Rat))
    (dataInicio dataFim : Nat) : List (Nat × Rat) :=
  let todosDados := segmentosBcb consulta dataInicio dataFim
  if todosDados.isEmpty then []
  else removeDatasDuplicadas (ordenaPorData todosDados) []

/-- The savings-account monthly accrual rule (renda_fixa_br.py lines 317-319):
`0.5 if selic > 8.5 else (selic * 0.7 / 12)`. -/
def rendimentoMensalPoupanca (selic : Rat) : Rat :=
  if selic > 8.5 then 0.5 else selic * 0.7 / 12

/-- `Series.cumprod()` with an explicit running accumulator. -/
def cumprodDesde : Rat → List Rat → List Rat
  | _, [] => []
  | acc, x :: xs => (acc * x) :: cumprodDesde (acc * x) xs

/-- `fator_acumulado` of `obter_poupanca` (renda_fixa_br.py lines 322-326):
per aligned (selic, tr) row, total monthly accrual is the tier rule plus
`tr / 12`, the daily rate is that total divided by 30, and the factors are the
cumulative product of `1 + taxa_diaria / 100`. -/
def fatoresPoupanca (taxas : List (Rat × Rat)) : List Rat :=
  cumprodDesde 1 (taxas.map (fun p =>
    1 + ((rendimentoMensalPoupanca p.1 + p.2 / 12) / 30) / 100))

/-- `valor_investimento` of `obter_poupanca` (renda_fixa_br.py lines 314-327):
the notional of 100,000 compounded by the accumulated factors.  The argument is
the aligned, zero-filled (selic, tr) table of lines 294-307. -/
def obter_poupanca (taxas : List (Rat × Rat)) : List Rat :=
  (fatoresPoupanca taxas).map (fun f => 100000 * f)

/-! Helper lemmas. -/

theorem getD_map_of_lt {α β : Type} (l : List α) (f : α → β) (i : Nat)
    (h : i < l.length) (d : α) (d' : β) : (l.map f).getD i d' = f (l.getD i d) := by
  rw [List.getD_eq_getElem?_getD, List.getElem?_map,
    List.getD_eq_getElem?_getD, List.getElem?_eq_getElem h]
  simp

theorem cumprodDesde_length (l : List Rat) :
    ∀ acc : Rat, (cumprodDesde acc l).length = l.length := by
  induction l with
  | nil => intro acc; rfl
  | cons x xs ih => intro acc; simp [cumprodDesde, ih]

theorem cumprodDesde_getD (l : List Rat) :
    ∀ (i : Nat) (acc : Rat), i < l.length →
      (cumprodDesde acc l).getD i 0 = acc * (l.take (i + 1)).prod := by
  induction l with
  | nil => intro i acc h; simp at h
  | cons x xs ih =>
    intro i acc h
    match i with
    | 0 => simp [cumprodDesde]
    | i + 1 =>
      have h' : i < xs.length := by simpa using h
      simp only [cumprodDesde, List.getD_cons_succ, List.take_succ_cons,
        List.prod_cons]
      rw [ih i (acc * x) h']
      ring

/-! Claim theorems. -/

/-- Claim C10: the windowed superation detector ignores its window-size
argument: `encontrar_janelas_superacao` computes `dias_janela = janela_meses *
21` but never uses it, so the interval list is identical for any two window
sizes. -/
theorem claim_C10 (retornos1 retornos2 : List (Nat × Rat)) (m m' : Nat) :
    encontrar_janelas_superacao retornos1 retornos2 m =
      encontrar_janelas_superacao retornos1 retornos2 m' := rfl

/-- Claim C7: for a non-empty Close series whose first value is non-zero (a
zero first close makes the Python float division produce NaN, which the
rational model cannot represent, hence the hypothesis), the percent-variation
series is defined (no exception), has the same length and dates, each value is
`(close[t] - close[0]) / close[0] * 100`, and the value at index 0 is exactly
0. -/
theorem claim_C7 (dados : List (Nat × Rat)) (hne : dados ≠ [])
    (hc0 : (dados.headD (0, 0)).2 ≠ 0) :
    ∃ v, calcular_variacao_percentual dados = some v ∧
      v.length = dados.length ∧
      (∀ i, i < dados.length → v.getD i (0, 0) =
        ((dados.getD i (0, 0)).1,
          ((dados.getD i (0, 0)).2 - (dados.headD (0, 0)).2) /
            (dados.headD (0, 0)).2 * 100)) ∧
      v.getD 0 (0, 0) = ((dados.headD (0, 0)).1, 0) := by
  obtain ⟨p, resto, rfl⟩ := List.exists_cons_of_ne_nil hne
  obtain ⟨d0, c0⟩ := p
  refine ⟨_, rfl, by simp, ?_, ?_⟩
  · intro i hi
    rw [getD_map_of_lt _ _ i (by simpa using hi) (0, 0)]
    simp
  · simp

/-- Claim C6: for any Close series and window of `m` months, the rolling-return
series has length `max 0 (len - m*21)`, entry `i` is the percent return between
index `i` and index `i + m*21` keyed by the date at `i + m*21`, and a series
shorter than the window width yields the empty series rather than an error. -/
theorem claim_C6 (dados : List (Nat × Rat)) (m : Nat) :
    ((calcular_retorno_janela dados m).length : Int) =
      max 0 ((dados.length : Int) - (m * 21 : Nat)) ∧
    (∀ i, i < (calcular_retorno_janela dados m).length →
      (calcular_retorno_janela dados m).getD i (0, 0) =
        ((dados.getD (i + m * 21) (0, 0)).1,
          ((dados.getD (i + m * 21) (0, 0)).2 - (dados.getD i (0, 0)).2) /
            (dados.getD i (0, 0)).2 * 100)) ∧
    (dados.length < m * 21 → calcular_retorno_janela dados m = []) := by
  refine ⟨?_, ?_, ?_⟩
  · simp only [calcular_retorno_janela, List.length_map, List.length_range]
    omega
  · intro i hi
    have hlen : i < dados.length - m * 21 := by
      simpa [calcular_retorno_janela] using hi
    have hr : (List.range (dados.length - m * 21)).getD i 0 = i := by
      rw [List.getD_eq_getElem?_getD, List.getElem?_range hlen]
      rfl
    simp only [calcular_retorno_janela]
    rw [getD_map_of_lt _ _ i (by simpa using hlen) 0]
    rw [hr]
  · intro h
    simp [calcular_retorno_janela, Nat.sub_eq_zero_of_le (Nat.le_of_lt h)]

/-- Claim C8: per aligned (policy, secondary) rate row, the savings monthly
accrual is 0.5 when the policy rate exceeds 8.5 and `policy * 0.7 / 12`
otherwise; the secondary rate contributes `secondary / 12`; the daily rate is
the monthly total over 30; and the valuation at each index is the notional
100000 times the running product of `1 + daily / 100`. -/
theorem claim_C8 (taxas : List (Rat × Rat)) (i : Nat) (h : i < taxas.length) :
    (∀ s : Rat, s > 8.5 → rendimentoMensalPoupanca s = 0.5) ∧
    (∀ s : Rat, ¬ s > 8.5 → rendimentoMensalPoupanca s = s * 0.7 / 12) ∧
    (obter_poupanca taxas).getD i 0 =
      100000 * ((taxas.take (i + 1)).map (fun p =>
        1 + ((rendimentoMensalPoupanca p.1 + p.2 / 12) / 30) / 100)).prod := by
  refine ⟨?_, ?_, ?_⟩
  · intro s hs; simp [rendimentoMensalPoupanca, hs]
  · intro s hs; simp [rendimentoMensalPoupanca, hs]
  · have hlen : i < (fatoresPoupanca taxas).length := by
      simpa [fatoresPoupanca, cumprodDesde_length] using h
    rw [show obter_poupanca taxas = (fatoresPoupanca taxas).map (fun f => 100000 * f)
        from rfl]
    rw [getD_map_of_lt _ _ i hlen 0]
    have hlen' : i < (taxas.map (fun p =>
        1 + ((rendimentoMensalPoupanca p.1 + p.2 / 12) / 30) / 100)).length := by
      simpa using h
    rw [show fatoresPoupanca taxas = cumprodDesde 1 (taxas.map (fun p =>
        1 + ((rendimentoMensalPoupanca p.1 + p.2 / 12) / 30) / 100)) from rfl]
    rw [cumprodDesde_getD _ i 1 hlen']
    rw [one_mul]
    simp [List.map_take]

/-- Claim C2: the currency normalizer never lets an exception escape: an inner
failure of any kind degrades to the unmodified input; a non-empty exchange-rate
range series is reindexed onto the input calendar, forward- then
backward-filled, and scales every price column per date; an empty range series
with a non-empty most-recent lookup applies the last known Close as one flat
multiplier; and if the fallback also yields nothing (or either fetch raises)
the input comes back unmodified. -/
theorem claim_C2 (dadosUsd : List (Nat × Linha)) (fonte : FonteCambio) :
    (∀ e, converterInterno dadosUsd fonte = .error e →
      converter_usd_para_brl dadosUsd fonte = dadosUsd) ∧
    (fonte.faixa = .levantou → converter_usd_para_brl dadosUsd fonte = dadosUsd) ∧
    (fonte.faixa = .devolveu [] → fonte.atual = .levantou →
      converter_usd_para_brl dadosUsd fonte = dadosUsd) ∧
    (fonte.faixa = .devolveu [] → fonte.atual = .devolveu [] →
      converter_usd_para_brl dadosUsd fonte = dadosUsd) ∧
    (∀ cambioAtual, fonte.faixa = .devolveu [] → fonte.atual = .devolveu cambioAtual →
      cambioAtual ≠ [] →
      converter_usd_para_brl dadosUsd fonte =
        dadosUsd.map (fun p =>
          (p.1, escalarLinha (some ((cambioAtual.getLastD (0, 0)).2)) p.2))) ∧
    (∀ cambio, fonte.faixa = .devolveu cambio → cambio ≠ [] →
      converter_usd_para_brl dadosUsd fonte =
        (dadosUsd.zip (taxasAlinhadas dadosUsd cambio)).map
          (fun q => (q.1.1, escalarLinha q.2 q.1.2))) := by
  obtain ⟨faixa, atual⟩ := fonte
  refine ⟨?_, ?_, ?_, ?_, ?_, ?_⟩
  · intro e he
    simp [converter_usd_para_brl, he]
  · intro hf
    simp only at hf
    subst hf
    rfl
  · intro hf ha
    simp only at hf ha
    subst hf; subst ha
    rfl
  · intro hf ha
    simp only at hf ha
    subst hf; subst ha
    rfl
  · intro cambioAtual hf ha hne
    simp only at hf ha
    subst hf; subst ha
    obtain ⟨c, cs, rfl⟩ := List.exists_cons_of_ne_nil hne
    rfl
  · intro cambio hf hne
    simp only at hf
    subst hf
    obtain ⟨c, cs, rfl⟩ := List.exists_cons_of_ne_nil hne
    rfl

/-! Concrete instances used by witnesses and counterexamples. -/

/-- A 22-point Close series with strictly increasing dates. -/
def serieExemplo : List (Nat × Rat) := (List.range 22).map (fun i => (i, (i : Rat) + 1))

/-- A 2-point Close series. -/
def serieC7 : List (Nat × Rat) := [(1, 10), (2, 20)]

/-- One aligned (policy rate, secondary rate) row. -/
def taxasExemplo : List (Rat × Rat) := [(10, 0.17)]

/-- A one-row USD frame. -/
def dadosExemplo : List (Nat × Linha) :=
  [(1, ⟨some 10, some 11, some 9, some 10, some 10, some 0⟩)]

theorem claim_C7_witness :
    ∃ v, calcular_variacao_percentual serieC7 = some v ∧
      v.length = serieC7.length ∧
      (∀ i, i < serieC7.length → v.getD i (0, 0) =
        ((serieC7.getD i (0, 0)).1,
          ((serieC7.getD i (0, 0)).2 - (serieC7.headD (0, 0)).2) /
            (serieC7.headD (0, 0)).2 * 100)) ∧
      v.getD 0 (0, 0) = ((serieC7.headD (0, 0)).1, 0) :=
  claim_C7 serieC7 (by decide) (by decide)

theorem claim_C6_witness :
    (calcular_retorno_janela serieExemplo 1).getD 0 (0, 0) =
      ((serieExemplo.getD (0 + 1 * 21) (0, 0)).1,
        ((serieExemplo.getD (0 + 1 * 21) (0, 0)).2 - (serieExemplo.getD 0 (0, 0)).2) /
          (serieExemplo.getD 0 (0, 0)).2 * 100) :=
  (claim_C6 serieExemplo 1).2.1 0 (by decide)

theorem claim_C8_witness :
    (obter_poupanca taxasExemplo).getD 0 0 =
      100000 * ((taxasExemplo.take (0 + 1)).map (fun p =>
        1 + ((rendimentoMensalPoupanca p.1 + p.2 / 12) / 30) / 100)).prod :=
  (claim_C8 taxasExemplo 0 (by decide)).2.2

theorem claim_C2_witness :
    converter_usd_para_brl dadosExemplo ⟨.levantou, .levantou⟩ = dadosExemplo :=
  (claim_C2 dadosExemplo ⟨.levantou, .levantou⟩).2.1 rfl

/-! The retry loop: step lemmas and claims C4 and C5. -/

theorem buscaYahoo_vazio (b : Nat → Tentativa) (t r : Nat)
    (hb : b t = .devolveu []) :
    buscaYahoo b t (r + 1) =
      (.consulta t :: (buscaYahoo b (t + 1) r).1, (buscaYahoo b (t + 1) r).2) := by
  simp [buscaYahoo, hb]

theorem buscaYahoo_levantou_retry (b : Nat → Tentativa) (t r : Nat) (m : String)
    (hb : b t = .levantou m) (hr : r ≠ 0) :
    buscaYahoo b t (r + 1) =
      (.consulta t :: .espera 2 :: (buscaYahoo b (t + 1) r).1,
        (buscaYahoo b (t + 1) r).2) := by
  simp [buscaYahoo, hb, hr]

theorem buscaYahoo_comeca_consulta (b : Nat → Tentativa) (t r : Nat) :
    ∃ resto, (buscaYahoo b t (r + 1)).1 = .consulta t :: resto := by
  cases hb : b t with
  | devolveu dados =>
    cases hd : dados.isEmpty <;> simp [buscaYahoo, hb, hd]
  | levantou m =>
    rcases Nat.eq_zero_or_pos r with hr | hr
    · subst hr; simp [buscaYahoo, hb]
    · have : r ≠ 0 := by omega
      simp [buscaYahoo, hb, this]

/-- The substring classification of "network/timeout" conditions that the
outer handler of `obter_dados_ativo` uses (comparacao_ativos.py line 88). -/
def ehMsgRede (msg : String) : Bool :=
  contem msg "ConnectionError" || contem msg "Failed to connect" ||
    contem (minusculas msg) "timeout"

/-- First attempt returns an empty frame, second returns data. -/
def comportamentoVazioDepoisDados : Nat → Tentativa :=
  fun n => if n = 0 then .devolveu [] else .devolveu [(0, 1)]

/-- First attempt raises a non-network exception, second returns data. -/
def comportamentoErroDepoisDados : Nat → Tentativa :=
  fun n => if n = 0 then .levantou "erro estranho" else .devolveu [(0, 1)]

/-- Claim C4 counterexample: against a source whose first response is
empty-but-successful and whose second response has data, the fetch retries
after the empty response (two download attempts are made) and succeeds, instead
of failing with the NotFound-style error without a further retry as the claim
states. -/
theorem claim_C4_counterexample :
    comportamentoVazioDepoisDados 0 = .devolveu [] ∧
    obter_dados_ativo "BTC-USD" comportamentoVazioDepoisDados = .ok [(0, 1)] ∧
    eventosBusca comportamentoVazioDepoisDados = [.consulta 0, .consulta 1] ∧
    obter_dados_ativo "BTC-USD" comportamentoVazioDepoisDados ≠
      .error (classificaErro "BTC-USD" (msgNaoEncontrado "BTC-USD")) := by
  refine ⟨rfl, rfl, rfl, fun hc => ?_⟩
  rw [show obter_dados_ativo "BTC-USD" comportamentoVazioDepoisDados
      = .ok [(0, 1)] from rfl] at hc
  exact Except.noConfusion hc

/-- Claim C4 (amended): an empty-but-successful response does not raise and is
silently re-attempted (with no backoff sleep); only when every attempt of the
3-attempt budget returns empty does the fetch fail, and then it fails with the
NotFound-style ValueError raised at line 73 (wrapped by the outer handler), not
with an unhandled exception. -/
theorem claim_C4 (ticker : String) (b : Nat → Tentativa)
    (h : ∀ t, t < 3 → b t = .devolveu []) :
    obter_dados_ativo ticker b =
      .error (classificaErro ticker (msgNaoEncontrado ticker)) ∧
    eventosBusca b = [.consulta 0, .consulta 1, .consulta 2] := by
  have h0 := h 0 (by omega)
  have h1 := h 1 (by omega)
  have h2 := h 2 (by omega)
  have hb : buscaYahoo b 0 3 = ([.consulta 0, .consulta 1, .consulta 2], none) := by
    rw [show (3 : Nat) = 2 + 1 from rfl, buscaYahoo_vazio b 0 2 h0,
      show (2 : Nat) = 1 + 1 from rfl, buscaYahoo_vazio b 1 1 h1,
      show (1 : Nat) = 0 + 1 from rfl, buscaYahoo_vazio b 2 0 h2]
    rfl
  constructor
  · rw [show obter_dados_ativo ticker b =
        (match (buscaYahoo b 0 3).2 with
          | some dados => .ok dados
          | none => .error (classificaErro ticker (msgNaoEncontrado ticker)))
        from rfl, hb]
  · rw [show eventosBusca b = (buscaYahoo b 0 3).1 from rfl, hb]

theorem claim_C4_witness :
    obter_dados_ativo "XYZ" (fun _ => .devolveu []) =
      .error (classificaErro "XYZ" (msgNaoEncontrado "XYZ")) ∧
    eventosBusca (fun _ => .devolveu []) = [.consulta 0, .consulta 1, .consulta 2] :=
  claim_C4 "XYZ" (fun _ => .devolveu []) (fun _ _ => rfl)

/-- Claim C5 counterexample: an exception whose text matches none of the
network/timeout keywords the code knows still triggers the 2-second sleep and a
retry, and the fetch then succeeds on the second attempt — it is not propagated
immediately as the claim states. -/
theorem claim_C5_counterexample :
    comportamentoErroDepoisDados 0 = .levantou "erro estranho" ∧
    ehMsgRede "erro estranho" = false ∧
    eventosBusca comportamentoErroDepoisDados = [.consulta 0, .espera 2, .consulta 1] ∧
    obter_dados_ativo "AAPL" comportamentoErroDepoisDados = .ok [(0, 1)] :=
  ⟨rfl, by decide, rfl, rfl⟩

/-- Claim C5 (amended): every exception raised during an attempt — regardless
of its classification — causes the fixed 2-second sleep and a retry while
attempts remain (3 in total); no exception is propagated immediately.  Only
after the whole budget has raised does the call fail, and it fails with the
ValueError built from the line-73 not-found text run through the best-effort
classifier of the outer handler. -/
theorem claim_C5 (ticker : String) (b : Nat → Tentativa) (m : String)
    (hb0 : b 0 = .levantou m) :
    (∃ resto, eventosBusca b = .consulta 0 :: .espera 2 :: .consulta 1 :: resto) ∧
    ((∀ t, t < 3 → ∃ mt, b t = .levantou mt) →
      eventosBusca b = [.consulta 0, .espera 2, .consulta 1, .espera 2, .consulta 2] ∧
      obter_dados_ativo ticker b =
        .error (classificaErro ticker (msgNaoEncontrado ticker))) := by
  constructor
  · obtain ⟨resto, hresto⟩ := buscaYahoo_comeca_consulta b 1 1
    have hev : eventosBusca b = .consulta 0 :: .espera 2 :: (buscaYahoo b 1 (1 + 1)).1 := by
      rw [show eventosBusca b = (buscaYahoo b 0 3).1 from rfl,
        show (3 : Nat) = 2 + 1 from rfl,
        buscaYahoo_levantou_retry b 0 2 m hb0 (by omega)]
    exact ⟨resto, by rw [hev, hresto]⟩
  · intro hall
    obtain ⟨m1, h1⟩ := hall 1 (by omega)
    obtain ⟨m2, h2⟩ := hall 2 (by omega)
    have hb : buscaYahoo b 0 3 =
        ([.consulta 0, .espera 2, .consulta 1, .espera 2, .consulta 2], none) := by
      rw [show (3 : Nat) = 2 + 1 from rfl,
        buscaYahoo_levantou_retry b 0 2 m hb0 (by omega),
        show (2 : Nat) = 1 + 1 from rfl,
        buscaYahoo_levantou_retry b 1 1 m1 h1 (by omega),
        show (1 : Nat) = 0 + 1 from rfl]
      simp [buscaYahoo, h2]
    constructor
    · rw [show eventosBusca b = (buscaYahoo b 0 3).1 from rfl, hb]
    · rw [show obter_dados_ativo ticker b =
          (match (buscaYahoo b 0 3).2 with
            | some dados => .ok dados
            | none => .error (classificaErro ticker (msgNaoEncontrado ticker)))
          from rfl, hb]

theorem claim_C5_witness :
    (∃ resto, eventosBusca (fun _ => .levantou "falha") =
      .consulta 0 :: .espera 2 :: .consulta 1 :: resto) ∧
    eventosBusca (fun _ => .levantou "falha") =
      [.consulta 0, .espera 2, .consulta 1, .espera 2, .consulta 2] ∧
    obter_dados_ativo "AAPL" (fun _ => .levantou "falha") =
      .error (classificaErro "AAPL" (msgNaoEncontrado "AAPL")) := by
  have h := claim_C5 "AAPL" (fun _ => .levantou "falha") "falha" rfl
  exact ⟨h.1, h.2 (fun t _ => ⟨"falha", rfl⟩)⟩

/-! The paginated BCB fetch: claim C3. -/

theorem consultaIdeal_dividida (base : List (Nat × Rat)) (a bnd c : Nat)
    (hs : base.Pairwise (fun p q => p.1 ≤ q.1))
    (hab : a ≤ bnd + 1) (hbc : bnd ≤ c) :
    consultaIdeal base a bnd ++ consultaIdeal base (bnd + 1) c =
      consultaIdeal base a c := by
  induction base with
  | nil => simp [consultaIdeal]
  | cons x xs ih =>
    rw [List.pairwise_cons] at hs
    obtain ⟨hx, hxs⟩ := hs
    simp only [consultaIdeal] at ih ⊢
    have hih := ih hxs
    simp only [List.filter_cons]
    by_cases h1 : a ≤ x.1
    · by_cases h2 : x.1 ≤ bnd
      · have e1 : decide (a ≤ x.1) = true := decide_eq_true h1
        have e2 : decide (x.1 ≤ bnd) = true := decide_eq_true h2
        have e3 : decide (bnd + 1 ≤ x.1) = false := decide_eq_false (by omega)
        have e4 : decide (x.1 ≤ c) = true := decide_eq_true (by omega)
        simp only [e1, e2, e3, e4]
        simp only [Bool.true_and, Bool.and_false, Bool.and_true, Bool.false_and]
        simp [hih]
      · by_cases h3 : x.1 ≤ c
        · have e1 : decide (a ≤ x.1) = true := decide_eq_true h1
          have e2 : decide (x.1 ≤ bnd) = false := decide_eq_false h2
          have e3 : decide (bnd + 1 ≤ x.1) = true := decide_eq_true (by omega)
          have e4 : decide (x.1 ≤ c) = true := decide_eq_true h3
          have hvazio :
              List.filter (fun p => decide (a ≤ p.1) && decide (p.1 ≤ bnd)) xs = [] := by
            rw [List.filter_eq_nil_iff]
            intro q hq
            have := hx q hq
            simp only [Bool.and_eq_true, decide_eq_true_eq]
            omega
          rw [hvazio, List.nil_append] at hih
          simp only [e1, e2, e3, e4]
          simp only [Bool.true_and, Bool.and_false, Bool.and_true, Bool.false_and]
          simp only [hvazio]
          simp [hih]
        · have e1 : decide (a ≤ x.1) = true := decide_eq_true h1
          have e2 : decide (x.1 ≤ bnd) = false := decide_eq_false h2
          have e4 : decide (x.1 ≤ c) = false := decide_eq_false h3
          simp only [e1, e2, e4]
          simp only [Bool.true_and, Bool.and_false, Bool.and_true, Bool.false_and]
          simp [hih]
    · have e1 : decide (a ≤ x.1) = false := decide_eq_false h1
      have e3 : decide (bnd + 1 ≤ x.1) = false := decide_eq_false (by omega)
      simp only [e1, e3]
      simp only [Bool.true_and, Bool.and_false, Bool.and_true, Bool.false_and]
      simp [hih]

theorem segmentosBcb_ideal (base : List (Nat × Rat))
    (hs : base.Pairwise (fun p q => p.1 ≤ q.1)) :
    ∀ (n cur fin : Nat), fin - cur ≤ n → (fin - cur) % 1826 ≠ 0 →
      segmentosBcb (consultaIdeal base) cur fin = consultaIdeal base cur fin := by
  intro n
  induction n with
  | zero =>
    intro cur fin hle hmod
    omega
  | succ n ih =>
    intro cur fin hle hmod
    have hlt : cur < fin := by omega
    rw [segmentosBcb, if_pos hlt]
    show consultaIdeal base cur (min (cur + 1825) fin) ++
        segmentosBcb (consultaIdeal base) (min (cur + 1825) fin + 1) fin =
      consultaIdeal base cur fin
    by_cases hfar : cur + 1825 < fin
    · have hmin : min (cur + 1825) fin = cur + 1825 := by omega
      rw [hmin]
      have hrec : segmentosBcb (consultaIdeal base) (cur + 1825 + 1) fin =
          consultaIdeal base (cur + 1825 + 1) fin := by
        apply ih
        · omega
        · omega
      rw [hrec]
      exact consultaIdeal_dividida base cur (cur + 1825) fin hs (by omega) (by omega)
    · have hmin : min (cur + 1825) fin = fin := by omega
      rw [hmin]
      rw [segmentosBcb, if_neg (by omega)]
      simp

theorem ordenaPorData_de_ordenada (l : List (Nat × Rat))
    (h : l.Pairwise (fun p q => p.1 ≤ q.1)) : ordenaPorData l = l := by
  induction l with
  | nil => rfl
  | cons x xs ih =>
    rw [List.pairwise_cons] at h
    obtain ⟨hx, hxs⟩ := h
    simp only [ordenaPorData, ih hxs]
    cases xs with
    | nil => rfl
    | cons y ys =>
      simp [insereOrdenado, hx y (by simp)]

theorem removeDatasDuplicadas_de_ordenada (l : List (Nat × Rat)) :
    ∀ vistas : List Nat, l.Pairwise (fun p q => p.1 < q.1) →
      (∀ p ∈ l, p.1 ∉ vistas) → removeDatasDuplicadas l vistas = l := by
  induction l with
  | nil => intro vistas _ _; rfl
  | cons x xs ih =>
    intro vistas h hdisj
    rw [List.pairwise_cons] at h
    obtain ⟨hx, hxs⟩ := h
    have hnot : vistas.contains x.1 = false := by
      have := hdisj x (by simp)
      simpa using this
    simp only [removeDatasDuplicadas, hnot, Bool.false_eq_true, if_false, ite_false]
    refine congrArg _ (ih (x.1 :: vistas) hxs ?_)
    intro q hq
    have h1 := hx q hq
    have h2 := hdisj q (by simp [hq])
    simp only [List.mem_cons]
    push_neg
    exact ⟨by omega, h2⟩

/-- Claim C3 counterexample: the pagination loop runs `while data_atual <
data_fim` and advances by slice-width 1826 days (5x365 inclusive plus the
one-day step), so a range whose length is an exact multiple of 1826 days never
queries its final day.  Here the ground truth holds one observation exactly on
the final day of a 1826-day range: the paginated fetch returns nothing while
the unsegmented call returns that observation. -/
theorem claim_C3_counterexample :
    buscar_serie_bcb (consultaIdeal [((1826 : Nat), (1 : Rat))]) 0 1826 = [] ∧
    consultaIdeal [((1826 : Nat), (1 : Rat))] 0 1826 = [(1826, 1)] ∧
    buscar_serie_bcb (consultaIdeal [((1826 : Nat), (1 : Rat))]) 0 1826 ≠
      consultaIdeal [((1826 : Nat), (1 : Rat))] 0 1826 := by
  have hseg : segmentosBcb (consultaIdeal [((1826 : Nat), (1 : Rat))]) 0 1826 = [] := by
    rw [segmentosBcb]
    norm_num [consultaIdeal]
    rw [segmentosBcb]
    norm_num
  refine ⟨?_, by decide, ?_⟩
  · simp [buscar_serie_bcb, hseg]
  · simp [buscar_serie_bcb, hseg]
    decide

/-- Claim C3 (amended): for a rate series with strictly increasing dates and an
ideal (span-unlimited) source, the paginated fetch — 5-year slices,
concatenated, sorted ascending by date, duplicate dates dropped keeping the
first occurrence — returns exactly what the single unsegmented call over the
whole range returns, provided the range length in days is not an exact multiple
of the 1826-day slice stride (on exact multiples, including the degenerate
single-day range, the loop exits before querying the final day and that day is
dropped). -/
theorem claim_C3 (base : List (Nat × Rat)) (dataInicio dataFim : Nat)
    (hbase : base.Pairwise (fun p q => p.1 < q.1))
    (hmod : (dataFim - dataInicio) % 1826 ≠ 0) :
    buscar_serie_bcb (consultaIdeal base) dataInicio dataFim =
      consultaIdeal base dataInicio dataFim := by
  have hs : base.Pairwise (fun p q => p.1 ≤ q.1) :=
    hbase.imp (fun h => Nat.le_of_lt h)
  have hseg := segmentosBcb_ideal base hs (dataFim - dataInicio) dataInicio dataFim
    le_rfl hmod
  have hsorted : (consultaIdeal base dataInicio dataFim).Pairwise
      (fun p q => p.1 < q.1) := hbase.filter _
  have hsorted' : (consultaIdeal base dataInicio dataFim).Pairwise
      (fun p q => p.1 ≤ q.1) := hsorted.imp (fun h => Nat.le_of_lt h)
  by_cases he : consultaIdeal base dataInicio dataFim = []
  · simp [buscar_serie_bcb, hseg, he]
  · have hne : (consultaIdeal base dataInicio dataFim).isEmpty = false := by
      simpa [List.isEmpty_iff] using he
    simp only [buscar_serie_bcb, hseg, hne, Bool.false_eq_true, if_false, ite_false]
    rw [ordenaPorData_de_ordenada _ hsorted']
    exact removeDatasDuplicadas_de_ordenada _ [] hsorted (by simp)

theorem claim_C3_witness :
    buscar_serie_bcb (consultaIdeal [((5 : Nat), (1 : Rat)), (100, 2)]) 0 10 =
      consultaIdeal [((5 : Nat), (1 : Rat)), (100, 2)] 0 10 :=
  claim_C3 [((5 : Nat), (1 : Rat)), (100, 2)] 0 10 (by decide) (by decide)

/-! The superation scanners: claims C1 and C9.  First, step equations for the
two scan loops. -/

theorem janelasGo_nil_falso (iD : Option Nat) (ant : Option (Nat × Rat × Rat)) :
    janelasGo [] false iD ant = [] := by
  simp [janelasGo]

theorem janelasGo_nil_fecha (s : Nat) (u : Nat × Rat × Rat) :
    janelasGo [] true (some s) (some u) = [(s, u.1, u.2.1, u.2.2)] := by
  simp [janelasGo]

theorem janelasGo_cons_sup_continua (d : Nat) (a b : Rat) (resto : List (Nat × Rat × Rat))
    (iD : Option Nat) (ant : Option (Nat × Rat × Rat)) (hba : b > a) :
    janelasGo ((d, a, b) :: resto) true iD ant =
      janelasGo resto true iD (some (d, a, b)) := by
  simp [janelasGo, hba]

theorem janelasGo_cons_sup_inicia (d : Nat) (a b : Rat) (resto : List (Nat × Rat × Rat))
    (iD : Option Nat) (ant : Option (Nat × Rat × Rat)) (hba : b > a) :
    janelasGo ((d, a, b) :: resto) false iD ant =
      janelasGo resto true (some d) (some (d, a, b)) := by
  simp [janelasGo, hba]

theorem janelasGo_cons_fecha (d : Nat) (a b : Rat) (resto : List (Nat × Rat × Rat))
    (s : Nat) (u : Nat × Rat × Rat) (hba : ¬ b > a) :
    janelasGo ((d, a, b) :: resto) true (some s) (some u) =
      (s, d, u.2.1, u.2.2) :: janelasGo resto false none (some (d, a, b)) := by
  simp [janelasGo, hba]

theorem janelasGo_cons_passa (d : Nat) (a b : Rat) (resto : List (Nat × Rat × Rat))
    (iD : Option Nat) (ant : Option (Nat × Rat × Rat)) (hba : ¬ b > a) :
    janelasGo ((d, a, b) :: resto) false iD ant =
      janelasGo resto false iD (some (d, a, b)) := by
  simp [janelasGo, hba]

theorem periodosGo_nil_fecha (s f : Nat) :
    periodosGo [] (some s) (some f) = [(s, f, (f : Int) - (s : Int) + 1)] := rfl

theorem periodosGo_nil_none (ant : Option Nat) :
    periodosGo [] none ant = [] := by
  cases ant <;> rfl

theorem periodosGo_cons_sup_inicia (d : Nat) (a b : Rat) (resto : List (Nat × Rat × Rat))
    (ant : Option Nat) (hba : b > a) :
    periodosGo ((d, a, b) :: resto) none ant = periodosGo resto (some d) (some d) := by
  cases ant <;> simp [periodosGo, hba]

theorem periodosGo_cons_sup_continua (d : Nat) (a b : Rat) (resto : List (Nat × Rat × Rat))
    (s : Nat) (ant : Option Nat) (hba : b > a) :
    periodosGo ((d, a, b) :: resto) (some s) ant =
      periodosGo resto (some s) (some d) := by
  cases ant <;> simp [periodosGo, hba]

theorem periodosGo_cons_fecha (d : Nat) (a b : Rat) (resto : List (Nat × Rat × Rat))
    (s f : Nat) (hba : ¬ b > a) :
    periodosGo ((d, a, b) :: resto) (some s) (some f) =
      (s, f, (f : Int) - (s : Int) + 1) :: periodosGo resto none (some d) := by
  simp [periodosGo, hba]

theorem periodosGo_cons_fecha_sem_anterior (d : Nat) (a b : Rat)
    (resto : List (Nat × Rat × Rat)) (s : Nat) (hba : ¬ b > a) :
    periodosGo ((d, a, b) :: resto) (some s) none =
      periodosGo resto none (some d) := by
  simp [periodosGo, hba]

theorem periodosGo_cons_passa (d : Nat) (a b : Rat) (resto : List (Nat × Rat × Rat))
    (ant : Option Nat) (hba : ¬ b > a) :
    periodosGo ((d, a, b) :: resto) none ant = periodosGo resto none (some d) := by
  cases ant <;> simp [periodosGo, hba]

/-- Invariant lemma for the windowed scan: every emitted interval starts at a
date whose aligned sample satisfies B > A, carries as its values an aligned
sample at which B > A holds, and either that values-sample sits immediately
before the end-date sample (which broke the run: B > A fails there), or the
interval closed at the end of the aligned list and its end date is the list's
last date, whose sample satisfies B > A. -/
theorem janelasGo_membro :
    ∀ (resto al : List (Nat × Rat × Rat)) (emSup : Bool)
      (inicioData : Option Nat) (anterior : Option (Nat × Rat × Rat))
      (feito : List (Nat × Rat × Rat)),
      al = feito ++ resto →
      anterior = feito.getLast? →
      (emSup = true → ∃ s u, inicioData = some s ∧ anterior = some u ∧
        (∃ a1 b1, (s, a1, b1) ∈ feito ∧ b1 > a1) ∧ u.2.2 > u.2.1) →
      ∀ J ∈ janelasGo resto emSup inicioData anterior,
        (∃ a1 b1, (J.1, a1, b1) ∈ al ∧ b1 > a1) ∧
        ((∃ du l1 l2 ae be,
            al = l1 ++ (du, J.2.2.1, J.2.2.2) :: (J.2.1, ae, be) :: l2 ∧
            J.2.2.2 > J.2.2.1 ∧ ¬ be > ae) ∨
          (al.getLast? = some (J.2.1, J.2.2.1, J.2.2.2) ∧ J.2.2.2 > J.2.2.1)) := by
  intro resto
  induction resto with
  | nil =>
    intro al emSup iD ant feito hal hant hstate J hJ
    cases emSup with
    | false => rw [janelasGo_nil_falso] at hJ; simp at hJ
    | true =>
      obtain ⟨s, u, hiD, hu, hsmem, hsup⟩ := hstate rfl
      subst hiD
      rw [hu, janelasGo_nil_fecha] at hJ
      rw [List.mem_singleton] at hJ
      subst hJ
      rw [List.append_nil] at hal
      subst hal
      constructor
      · exact hsmem
      · exact Or.inr ⟨by rw [← hant, hu], hsup⟩
  | cons cabeca resto' ih =>
    intro al emSup iD ant feito hal hant hstate J hJ
    obtain ⟨d, a, b⟩ := cabeca
    have halx : al = (feito ++ [(d, a, b)]) ++ resto' := by
      rw [hal, List.append_assoc, List.singleton_append]
    have hantx : some ((d, a, b) : Nat × Rat × Rat) =
        (feito ++ [(d, a, b)]).getLast? := (List.getLast?_concat feito).symm
    by_cases hba : b > a
    · cases emSup with
      | true =>
        obtain ⟨s, u, hiD, hu, hsmem, hsup⟩ := hstate rfl
        rw [janelasGo_cons_sup_continua _ _ _ _ _ _ hba] at hJ
        refine ih al true iD (some (d, a, b)) (feito ++ [(d, a, b)]) halx hantx
          (fun _ => ⟨s, (d, a, b), hiD, rfl, ?_, hba⟩) J hJ
        obtain ⟨a1, b1, hmem, hb1⟩ := hsmem
        exact ⟨a1, b1, List.mem_append_left _ hmem, hb1⟩
      | false =>
        rw [janelasGo_cons_sup_inicia _ _ _ _ _ _ hba] at hJ
        refine ih al true (some d) (some (d, a, b)) (feito ++ [(d, a, b)]) halx hantx
          (fun _ => ⟨d, (d, a, b), rfl, rfl, ⟨a, b, ?_, hba⟩, hba⟩) J hJ
        exact List.mem_append_right _ (List.mem_singleton.mpr rfl)
    · cases emSup with
      | true =>
        obtain ⟨s, u, hiD, hu, hsmem, hsup⟩ := hstate rfl
        subst hiD
        rw [hu, janelasGo_cons_fecha _ _ _ _ _ _ hba] at hJ
        rcases List.mem_cons.mp hJ with rfl | hJ'
        · constructor
          · obtain ⟨a1, b1, hmem, hb1⟩ := hsmem
            exact ⟨a1, b1, by rw [hal]; exact List.mem_append_left _ hmem, hb1⟩
          · left
            have hfu : feito.getLast? = some u := by rw [← hant, hu]
            obtain ⟨l1, hfe⟩ := List.getLast?_eq_some_iff.mp hfu
            refine ⟨u.1, l1, resto', a, b, ?_, hsup, hba⟩
            rw [hal, hfe, List.append_assoc, List.singleton_append]
        · refine ih al false none (some (d, a, b)) (feito ++ [(d, a, b)]) halx hantx
            (fun h => by simp at h) J hJ'
      | false =>
        rw [janelasGo_cons_passa _ _ _ _ _ _ hba] at hJ
        exact ih al false iD (some (d, a, b)) (feito ++ [(d, a, b)]) halx hantx
          (fun h => by simp at h) J hJ

/-- Claim C1 counterexample: two aligned return series whose superation
predicate is [true, false].  The emitted interval is (start 1, end 2, values
0, 1): the values are those of the last point inside the run (date 1), but the
end date 2 is the date of the sample that ended the run, and at that sample
the predicate B > A is false (A = 1, B = 0), contradicting the claim that
B > A holds at the underlying aligned sample of both boundary dates. -/
theorem claim_C1_counterexample :
    encontrar_janelas_superacao [((1 : Nat), (0 : Rat)), (2, 1)] [(1, 1), (2, 0)] 24 =
      [(1, 2, 0, 1)] ∧
    alinhar [((1 : Nat), (0 : Rat)), (2, 1)] [(1, 1), (2, 0)] =
      [(1, 0, 1), (2, 1, 0)] ∧
    ¬ ((0 : Rat) > 1) := by
  refine ⟨by decide, by decide, by decide⟩

/-- Claim C1 (amended): every interval emitted by the windowed detector starts
at a date whose underlying aligned sample satisfies B > A, and its boundary
values come from the last aligned point inside the run (where B > A holds).
For a run closed mid-series, however, the emitted end date is the date of the
sample that ended the run — the values-sample sits immediately before the
end-date sample in the aligned list, and B > A fails at the end-date sample;
only when the run is still open at the final observation is the end date the
aligned series' last date, at whose sample B > A does hold. -/
theorem claim_C1 (retornos1 retornos2 : List (Nat × Rat)) (m : Nat) :
    ∀ J ∈ encontrar_janelas_superacao retornos1 retornos2 m,
      (∃ a1 b1, (J.1, a1, b1) ∈ alinhar retornos1 retornos2 ∧ b1 > a1) ∧
      ((∃ du l1 l2 ae be,
          alinhar retornos1 retornos2 =
            l1 ++ (du, J.2.2.1, J.2.2.2) :: (J.2.1, ae, be) :: l2 ∧
          J.2.2.2 > J.2.2.1 ∧ ¬ be > ae) ∨
        ((alinhar retornos1 retornos2).getLast? = some (J.2.1, J.2.2.1, J.2.2.2) ∧
          J.2.2.2 > J.2.2.1)) := by
  intro J hJ
  by_cases he : (alinhar retornos1 retornos2).isEmpty
  · rw [show encontrar_janelas_superacao retornos1 retornos2 m = [] from by
      simp [encontrar_janelas_superacao, he]] at hJ
    simp at hJ
  · have hJ' : J ∈ janelasGo (alinhar retornos1 retornos2) false none none := by
      rw [show encontrar_janelas_superacao retornos1 retornos2 m =
          janelasGo (alinhar retornos1 retornos2) false none none from by
        simp [encontrar_janelas_superacao, he]] at hJ
      exact hJ
    exact janelasGo_membro (alinhar retornos1 retornos2) (alinhar retornos1 retornos2)
      false none none [] rfl rfl (fun h => by simp at h) J hJ'

theorem claim_C1_witness :
    (∃ a1 b1, (((3 : Nat), (4 : Nat), (-20 : Rat), (30 : Rat)).1, a1, b1) ∈
        alinhar [((1 : Nat), (0 : Rat)), (2, 10), (3, -10), (4, -20)]
          [(1, 0), (2, 5), (3, -5), (4, 30)] ∧ b1 > a1) ∧
    ((∃ du l1 l2 ae be,
        alinhar [((1 : Nat), (0 : Rat)), (2, 10), (3, -10), (4, -20)]
            [(1, 0), (2, 5), (3, -5), (4, 30)] =
          l1 ++ (du, ((3 : Nat), (4 : Nat), (-20 : Rat), (30 : Rat)).2.2.1,
              ((3 : Nat), (4 : Nat), (-20 : Rat), (30 : Rat)).2.2.2) ::
            (((3 : Nat), (4 : Nat), (-20 : Rat), (30 : Rat)).2.1, ae, be) :: l2 ∧
        ((3 : Nat), (4 : Nat), (-20 : Rat), (30 : Rat)).2.2.2 >
          ((3 : Nat), (4 : Nat), (-20 : Rat), (30 : Rat)).2.2.1 ∧ ¬ be > ae) ∨
      ((alinhar [((1 : Nat), (0 : Rat)), (2, 10), (3, -10), (4, -20)]
            [(1, 0), (2, 5), (3, -5), (4, 30)]).getLast? =
          some (((3 : Nat), (4 : Nat), (-20 : Rat), (30 : Rat)).2.1,
            ((3 : Nat), (4 : Nat), (-20 : Rat), (30 : Rat)).2.2.1,
            ((3 : Nat), (4 : Nat), (-20 : Rat), (30 : Rat)).2.2.2) ∧
        ((3 : Nat), (4 : Nat), (-20 : Rat), (30 : Rat)).2.2.2 >
          ((3 : Nat), (4 : Nat), (-20 : Rat), (30 : Rat)).2.2.1)) :=
  claim_C1 [((1 : Nat), (0 : Rat)), (2, 10), (3, -10), (4, -20)]
    [(1, 0), (2, 5), (3, -5), (4, 30)] 24
    ((3 : Nat), (4 : Nat), (-20 : Rat), (30 : Rat)) (by decide)

/-- Ordering invariant for the windowed scan over a strictly date-sorted
aligned list: emitted intervals are pairwise separated (the end date of an
earlier interval is strictly before the start date of a later one), every
interval has start ≤ end, and every start date is the stored run-start date or
a date of the remaining input. -/
theorem janelasGo_ordenado :
    ∀ (resto : List (Nat × Rat × Rat)),
      resto.Pairwise (fun u v => u.1 < v.1) →
      ∀ (emSup : Bool) (iD : Option Nat) (ant : Option (Nat × Rat × Rat)),
      (emSup = true → ∃ s u, iD = some s ∧ ant = some u ∧ s ≤ u.1) →
      (∀ u, ant = some u → ∀ v ∈ resto, u.1 < v.1) →
      (janelasGo resto emSup iD ant).Pairwise (fun J K => J.2.1 < K.1) ∧
      (∀ J ∈ janelasGo resto emSup iD ant, J.1 ≤ J.2.1) ∧
      (∀ J ∈ janelasGo resto emSup iD ant,
        (emSup = true ∧ iD = some J.1) ∨ J.1 ∈ resto.map (fun u => u.1)) := by
  intro resto
  induction resto with
  | nil =>
    intro _ emSup iD ant hA _
    cases emSup with
    | false => rw [janelasGo_nil_falso]; simp
    | true =>
      obtain ⟨s, u, hiD, hant, hsu⟩ := hA rfl
      subst hiD; subst hant
      rw [janelasGo_nil_fecha]
      refine ⟨List.pairwise_singleton _ _, ?_, ?_⟩
      · intro J hJ
        rw [List.mem_singleton] at hJ
        subst hJ
        exact hsu
      · intro J hJ
        rw [List.mem_singleton] at hJ
        subst hJ
        exact Or.inl ⟨rfl, rfl⟩
  | cons cabeca resto' ih =>
    intro hsort emSup iD ant hA hB
    obtain ⟨d, a, b⟩ := cabeca
    rw [List.pairwise_cons] at hsort
    obtain ⟨hd, hsort'⟩ := hsort
    have hBnovo : ∀ u' : Nat × Rat × Rat, some ((d, a, b) : Nat × Rat × Rat) = some u' →
        ∀ v ∈ resto', u'.1 < v.1 := by
      intro u' hu' v hv
      have : u' = (d, a, b) := by injection hu' with h; exact h.symm
      subst this
      exact hd v hv
    by_cases hba : b > a
    · cases emSup with
      | true =>
        obtain ⟨s, u, hiD, hant, hsu⟩ := hA rfl
        rw [janelasGo_cons_sup_continua _ _ _ _ _ _ hba]
        have hud : u.1 < d := hB u hant (d, a, b) (List.mem_cons_self _ _)
        obtain ⟨hp, hii, hiii⟩ := ih hsort' true iD (some (d, a, b))
          (fun _ => ⟨s, (d, a, b), hiD, rfl, by omega⟩) hBnovo
        refine ⟨hp, hii, ?_⟩
        intro J hJ
        rcases hiii J hJ with ⟨_, hJs⟩ | hJm
        · exact Or.inl ⟨rfl, hJs⟩
        · right
          rw [List.map_cons]
          exact List.mem_cons_of_mem _ hJm
      | false =>
        rw [janelasGo_cons_sup_inicia _ _ _ _ _ _ hba]
        obtain ⟨hp, hii, hiii⟩ := ih hsort' true (some d) (some (d, a, b))
          (fun _ => ⟨d, (d, a, b), rfl, rfl, le_refl d⟩) hBnovo
        refine ⟨hp, hii, ?_⟩
        intro J hJ
        right
        rw [List.map_cons]
        rcases hiii J hJ with ⟨_, hJs⟩ | hJm
        · have : J.1 = d := by injection hJs with h; exact h.symm
          rw [this]
          exact List.mem_cons_self _ _
        · exact List.mem_cons_of_mem _ hJm
    · cases emSup with
      | true =>
        obtain ⟨s, u, hiD, hant, hsu⟩ := hA rfl
        subst hiD; subst hant
        rw [janelasGo_cons_fecha _ _ _ _ _ _ hba]
        have hud : u.1 < d := hB u rfl (d, a, b) (List.mem_cons_self _ _)
        obtain ⟨hp, hii, hiii⟩ := ih hsort' false none (some (d, a, b))
          (fun h => by simp at h) hBnovo
        have hcauda : ∀ K ∈ janelasGo resto' false none (some (d, a, b)), d < K.1 := by
          intro K hK
          rcases hiii K hK with ⟨hfalso, _⟩ | hKm
          · simp at hfalso
          · rw [List.mem_map] at hKm
            obtain ⟨v, hv, hveq⟩ := hKm
            have := hd v hv
            omega
        refine ⟨List.Pairwise.cons (fun K hK => hcauda K hK) hp, ?_, ?_⟩
        · intro J hJ
          rcases List.mem_cons.mp hJ with rfl | hJ'
          · show s ≤ d
            omega
          · exact hii J hJ'
        · intro J hJ
          rcases List.mem_cons.mp hJ with rfl | hJ'
          · exact Or.inl ⟨rfl, rfl⟩
          · right
            rw [List.map_cons]
            rcases hiii J hJ' with ⟨hfalso, _⟩ | hJm
            · simp at hfalso
            · exact List.mem_cons_of_mem _ hJm
      | false =>
        rw [janelasGo_cons_passa _ _ _ _ _ _ hba]
        obtain ⟨hp, hii, hiii⟩ := ih hsort' false iD (some (d, a, b))
          (fun h => by simp at h) hBnovo
        refine ⟨hp, hii, ?_⟩
        intro J hJ
        rcases hiii J hJ with ⟨hfalso, _⟩ | hJm
        · simp at hfalso
        · right
          rw [List.map_cons]
          exact List.mem_cons_of_mem _ hJm

/-- Ordering invariant for the point-comparison scan, analogous to
`janelasGo_ordenado`.  Here the end date of a closed interval is the date of
the last sample inside the run (`index[i-1]`), which still lies strictly
before every later interval's start. -/
theorem periodosGo_ordenado :
    ∀ (resto : List (Nat × Rat × Rat)),
      resto.Pairwise (fun u v => u.1 < v.1) →
      ∀ (inicio anterior : Option Nat),
      (∀ s, inicio = some s → ∃ f, anterior = some f ∧ s ≤ f) →
      (∀ f, anterior = some f → ∀ v ∈ resto, f < v.1) →
      (periodosGo resto inicio anterior).Pairwise (fun J K => J.2.1 < K.1) ∧
      (∀ J ∈ periodosGo resto inicio anterior, J.1 ≤ J.2.1) ∧
      (∀ J ∈ periodosGo resto inicio anterior,
        inicio = some J.1 ∨ J.1 ∈ resto.map (fun u => u.1)) := by
  intro resto
  induction resto with
  | nil =>
    intro _ inicio anterior hA _
    cases inicio with
    | none => rw [periodosGo_nil_none]; simp
    | some s =>
      obtain ⟨f, hant, hsf⟩ := hA s rfl
      subst hant
      rw [periodosGo_nil_fecha]
      refine ⟨List.pairwise_singleton _ _, ?_, ?_⟩
      · intro J hJ
        rw [List.mem_singleton] at hJ
        subst hJ
        exact hsf
      · intro J hJ
        rw [List.mem_singleton] at hJ
        subst hJ
        exact Or.inl rfl
  | cons cabeca resto' ih =>
    intro hsort inicio anterior hA hB
    obtain ⟨d, a, b⟩ := cabeca
    rw [List.pairwise_cons] at hsort
    obtain ⟨hd, hsort'⟩ := hsort
    have hBnovo : ∀ f, some d = some f → ∀ v ∈ resto', f < v.1 := by
      intro f hf v hv
      have : f = d := by injection hf with h; exact h.symm
      subst this
      exact hd v hv
    by_cases hba : b > a
    · cases inicio with
      | none =>
        rw [periodosGo_cons_sup_inicia _ _ _ _ _ hba]
        obtain ⟨hp, hii, hiii⟩ := ih hsort' (some d) (some d)
          (fun s hs => ⟨d, rfl, by injection hs with h; omega⟩) hBnovo
        refine ⟨hp, hii, ?_⟩
        intro J hJ
        right
        rw [List.map_cons]
        rcases hiii J hJ with hJs | hJm
        · have : J.1 = d := by injection hJs with h; exact h.symm
          rw [this]
          exact List.mem_cons_self _ _
        · exact List.mem_cons_of_mem _ hJm
      | some s =>
        obtain ⟨f, hant, hsf⟩ := hA s rfl
        subst hant
        have hfd : f < d := hB f rfl (d, a, b) (List.mem_cons_self _ _)
        rw [periodosGo_cons_sup_continua _ _ _ _ _ _ hba]
        obtain ⟨hp, hii, hiii⟩ := ih hsort' (some s) (some d)
          (fun s' hs' => ⟨d, rfl, by injection hs' with h; omega⟩) hBnovo
        refine ⟨hp, hii, ?_⟩
        intro J hJ
        rcases hiii J hJ with hJs | hJm
        · exact Or.inl hJs
        · right
          rw [List.map_cons]
          exact List.mem_cons_of_mem _ hJm
    · cases inicio with
      | none =>
        rw [periodosGo_cons_passa _ _ _ _ _ hba]
        obtain ⟨hp, hii, hiii⟩ := ih hsort' none (some d)
          (fun s hs => by simp at hs) hBnovo
        refine ⟨hp, hii, ?_⟩
        intro J hJ
        rcases hiii J hJ with hJs | hJm
        · simp at hJs
        · right
          rw [List.map_cons]
          exact List.mem_cons_of_mem _ hJm
      | some s =>
        cases anterior with
        | none =>
          rw [periodosGo_cons_fecha_sem_anterior _ _ _ _ _ hba]
          obtain ⟨hp, hii, hiii⟩ := ih hsort' none (some d)
            (fun s' hs' => by simp at hs') hBnovo
          refine ⟨hp, hii, ?_⟩
          intro J hJ
          rcases hiii J hJ with hJs | hJm
          · simp at hJs
          · right
            rw [List.map_cons]
            exact List.mem_cons_of_mem _ hJm
        | some f =>
          obtain ⟨f', hant, hsf'⟩ := hA s rfl
          have hsf : s ≤ f := by
            have hff : f = f' := Option.some.inj hant
            omega
          have hfd : f < d := hB f rfl (d, a, b) (List.mem_cons_self _ _)
          rw [periodosGo_cons_fecha _ _ _ _ _ _ hba]
          obtain ⟨hp, hii, hiii⟩ := ih hsort' none (some d)
            (fun s' hs' => by simp at hs') hBnovo
          have hcauda : ∀ K ∈ periodosGo resto' none (some d), f < K.1 := by
            intro K hK
            rcases hiii K hK with hKs | hKm
            · simp at hKs
            · rw [List.mem_map] at hKm
              obtain ⟨v, hv, hveq⟩ := hKm
              have := hd v hv
              omega
          refine ⟨List.Pairwise.cons (fun K hK => hcauda K hK) hp, ?_, ?_⟩
          · intro J hJ
            rcases List.mem_cons.mp hJ with rfl | hJ'
            · exact hsf
            · exact hii J hJ'
          · intro J hJ
            rcases List.mem_cons.mp hJ with rfl | hJ'
            · exact Or.inl rfl
            · right
              rw [List.map_cons]
              rcases hiii J hJ' with hJs | hJm
              · simp at hJs
              · exact List.mem_cons_of_mem _ hJm

/-- If the predicate B > A holds at the last aligned sample, the windowed scan
ends with an interval whose end date is the last aligned date. -/
theorem janelasGo_ultimo :
    ∀ (resto : List (Nat × Rat × Rat)) (emSup : Bool) (iD : Option Nat)
      (ant : Option (Nat × Rat × Rat)),
      (emSup = true → ∃ s u, iD = some s ∧ ant = some u) →
      ∀ w, resto.getLast? = some w → w.2.2 > w.2.1 →
        ∃ s ra rb, (janelasGo resto emSup iD ant).getLast? =
          some (s, w.1, ra, rb) := by
  intro resto
  induction resto with
  | nil =>
    intro _ _ _ _ w hw _
    simp at hw
  | cons cabeca resto' ih =>
    intro emSup iD ant hstate w hw hsup
    obtain ⟨d, a, b⟩ := cabeca
    cases resto' with
    | nil =>
      simp only [List.getLast?_singleton, Option.some.injEq] at hw
      subst hw
      have hba : b > a := hsup
      cases emSup with
      | false =>
        rw [janelasGo_cons_sup_inicia _ _ _ _ _ _ hba, janelasGo_nil_fecha]
        exact ⟨d, a, b, rfl⟩
      | true =>
        obtain ⟨s, u, hiD, hant⟩ := hstate rfl
        subst hiD; subst hant
        rw [janelasGo_cons_sup_continua _ _ _ _ _ _ hba, janelasGo_nil_fecha]
        exact ⟨s, a, b, rfl⟩
    | cons y t =>
      have hw' : (y :: t).getLast? = some w := by
        rw [← hw]
        exact List.getLast?_cons_cons.symm
      by_cases hba : b > a
      · cases emSup with
        | true =>
          obtain ⟨s, u, hiD, hant⟩ := hstate rfl
          subst hiD; subst hant
          rw [janelasGo_cons_sup_continua _ _ _ _ _ _ hba]
          exact ih true (some s) (some (d, a, b))
            (fun _ => ⟨s, (d, a, b), rfl, rfl⟩) w hw' hsup
        | false =>
          rw [janelasGo_cons_sup_inicia _ _ _ _ _ _ hba]
          exact ih true (some d) (some (d, a, b))
            (fun _ => ⟨d, (d, a, b), rfl, rfl⟩) w hw' hsup
      · cases emSup with
        | true =>
          obtain ⟨s, u, hiD, hant⟩ := hstate rfl
          subst hiD; subst hant
          rw [janelasGo_cons_fecha _ _ _ _ _ _ hba]
          obtain ⟨s', ra, rb, hrec⟩ := ih false none (some (d, a, b))
            (fun h => by simp at h) w hw' hsup
          have hne : janelasGo (y :: t) false none (some (d, a, b)) ≠ [] := by
            intro hnil
            rw [hnil] at hrec
            simp at hrec
          obtain ⟨rh, rt, hsplit⟩ := List.exists_cons_of_ne_nil hne
          rw [hsplit] at hrec ⊢
          rw [List.getLast?_cons_cons]
          exact ⟨s', ra, rb, hrec⟩
        | false =>
          rw [janelasGo_cons_passa _ _ _ _ _ _ hba]
          exact ih false iD (some (d, a, b)) (fun h => by simp at h) w hw' hsup

/-- If the predicate B > A holds at the last aligned sample, the point scan
ends with a period whose end date is the last aligned date (and whose reported
day count is end - start + 1). -/
theorem periodosGo_ultimo :
    ∀ (resto : List (Nat × Rat × Rat)) (inicio anterior : Option Nat),
      ∀ w, resto.getLast? = some w → w.2.2 > w.2.1 →
        ∃ s : Nat, (periodosGo resto inicio anterior).getLast? =
          some (s, w.1, (w.1 : Int) - (s : Int) + 1) := by
  intro resto
  induction resto with
  | nil =>
    intro _ _ w hw _
    simp at hw
  | cons cabeca resto' ih =>
    intro inicio anterior w hw hsup
    obtain ⟨d, a, b⟩ := cabeca
    cases resto' with
    | nil =>
      simp only [List.getLast?_singleton, Option.some.injEq] at hw
      subst hw
      have hba : b > a := hsup
      cases inicio with
      | none =>
        rw [periodosGo_cons_sup_inicia _ _ _ _ _ hba, periodosGo_nil_fecha]
        exact ⟨d, rfl⟩
      | some s =>
        rw [periodosGo_cons_sup_continua _ _ _ _ _ _ hba, periodosGo_nil_fecha]
        exact ⟨s, rfl⟩
    | cons y t =>
      have hw' : (y :: t).getLast? = some w := by
        rw [← hw]
        exact List.getLast?_cons_cons.symm
      by_cases hba : b > a
      · cases inicio with
        | none =>
          rw [periodosGo_cons_sup_inicia _ _ _ _ _ hba]
          exact ih (some d) (some d) w hw' hsup
        | some s =>
          rw [periodosGo_cons_sup_continua _ _ _ _ _ _ hba]
          exact ih (some s) (some d) w hw' hsup
      · cases inicio with
        | none =>
          rw [periodosGo_cons_passa _ _ _ _ _ hba]
          exact ih none (some d) w hw' hsup
        | some s =>
          cases anterior with
          | none =>
            rw [periodosGo_cons_fecha_sem_anterior _ _ _ _ _ hba]
            exact ih none (some d) w hw' hsup
          | some f =>
            rw [periodosGo_cons_fecha _ _ _ _ _ _ hba]
            obtain ⟨s', hrec⟩ := ih none (some d) w hw' hsup
            have hne : periodosGo (y :: t) none (some d) ≠ [] := by
              intro hnil
              rw [hnil] at hrec
              simp at hrec
            obtain ⟨rh, rt, hsplit⟩ := List.exists_cons_of_ne_nil hne
            rw [hsplit] at hrec ⊢
            rw [List.getLast?_cons_cons]
            exact ⟨s', hrec⟩

/-- Aligning preserves strictly increasing dates of the first series. -/
theorem alinhar_ordenado (r1 r2 : List (Nat × Rat))
    (h1 : r1.Pairwise (fun p q => p.1 < q.1)) :
    (alinhar r1 r2).Pairwise (fun u v => u.1 < v.1) := by
  induction r1 with
  | nil => exact List.Pairwise.nil
  | cons p ps ih =>
    rw [List.pairwise_cons] at h1
    obtain ⟨hp, hps⟩ := h1
    have hcauda : ∀ v ∈ alinhar ps r2, p.1 < v.1 := by
      intro v hv
      rw [alinhar, List.mem_filterMap] at hv
      obtain ⟨q, hq, hqv⟩ := hv
      cases hl2 : r2.lookup q.1 with
      | none => rw [hl2] at hqv; simp at hqv
      | some bq =>
        rw [hl2] at hqv
        simp only [Option.map_some', Option.some.injEq] at hqv
        subst hqv
        exact hp q hq
    rw [show alinhar (p :: ps) r2 = List.filterMap
        (fun q => (r2.lookup q.1).map (fun b => (q.1, q.2, b))) (p :: ps) from rfl,
      List.filterMap_cons]
    cases hl : r2.lookup p.1 with
    | none => exact ih hps
    | some bp => exact List.Pairwise.cons hcauda (ih hps)

/-- Claim C9: for input series with strictly increasing dates, both superation
detectors return interval lists in which the end date of every earlier interval
is strictly before the start date of every later one (hence no two intervals
overlap and start dates are non-decreasing — in fact strictly increasing), each
interval has start ≤ end; a run still open at the final aligned observation
closes at the aligned series' last date; and an empty aligned join yields the
empty interval list from both detectors, not an error. -/
theorem claim_C9 (r1 r2 : List (Nat × Rat)) (m : Nat)
    (hord1 : r1.Pairwise (fun p q => p.1 < q.1))
    (hord2 : r2.Pairwise (fun p q => p.1 < q.1)) :
    (encontrar_janelas_superacao r1 r2 m).Pairwise (fun J K => J.2.1 < K.1) ∧
    (∀ J ∈ encontrar_janelas_superacao r1 r2 m, J.1 ≤ J.2.1) ∧
    (encontrar_periodos_superacao r1 r2).Pairwise (fun J K => J.2.1 < K.1) ∧
    (∀ J ∈ encontrar_periodos_superacao r1 r2, J.1 ≤ J.2.1) ∧
    (∀ w, (alinhar r1 r2).getLast? = some w → w.2.2 > w.2.1 →
      (∃ s ra rb, (encontrar_janelas_superacao r1 r2 m).getLast? =
        some (s, w.1, ra, rb)) ∧
      (∃ s : Nat, (encontrar_periodos_superacao r1 r2).getLast? =
        some (s, w.1, (w.1 : Int) - (s : Int) + 1))) ∧
    (alinhar r1 r2 = [] → encontrar_janelas_superacao r1 r2 m = [] ∧
      encontrar_periodos_superacao r1 r2 = []) := by
  have hal := alinhar_ordenado r1 r2 hord1
  have hpr : encontrar_periodos_superacao r1 r2 =
      periodosGo (alinhar r1 r2) none none := rfl
  by_cases he : (alinhar r1 r2).isEmpty
  · have hale : alinhar r1 r2 = [] := by simpa [List.isEmpty_iff] using he
    have hj : encontrar_janelas_superacao r1 r2 m = [] := by
      simp [encontrar_janelas_superacao, he]
    have hp : encontrar_periodos_superacao r1 r2 = [] := by
      rw [hpr, hale, periodosGo_nil_none]
    refine ⟨by rw [hj]; exact List.Pairwise.nil, by simp [hj],
      by rw [hp]; exact List.Pairwise.nil, by simp [hp], ?_, fun _ => ⟨hj, hp⟩⟩
    intro w hw _
    rw [hale] at hw
    simp at hw
  · have hne : ¬ alinhar r1 r2 = [] := by simpa [List.isEmpty_iff] using he
    have hj : encontrar_janelas_superacao r1 r2 m =
        janelasGo (alinhar r1 r2) false none none := by
      simp [encontrar_janelas_superacao, he]
    obtain ⟨hp1, hp2, _⟩ := janelasGo_ordenado (alinhar r1 r2) hal false none none
      (fun h => by simp at h) (fun u hu => by simp at hu)
    obtain ⟨hq1, hq2, _⟩ := periodosGo_ordenado (alinhar r1 r2) hal none none
      (fun s hs => by simp at hs) (fun f hf => by simp at hf)
    refine ⟨by rw [hj]; exact hp1, by rw [hj]; exact hp2,
      by rw [hpr]; exact hq1, by rw [hpr]; exact hq2, ?_, fun hale => absurd hale hne⟩
    intro w hw hsup
    constructor
    · obtain ⟨s, ra, rb, hrec⟩ := janelasGo_ultimo (alinhar r1 r2) false none none
        (fun h => by simp at h) w hw hsup
      exact ⟨s, ra, rb, by rw [hj]; exact hrec⟩
    · obtain ⟨s, hrec⟩ := periodosGo_ultimo (alinhar r1 r2) none none w hw hsup
      exact ⟨s, by rw [hpr]; exact hrec⟩

theorem claim_C9_witness :
    (encontrar_janelas_superacao [((1 : Nat), (0 : Rat)), (2, 10), (3, -10), (4, -20)]
      [(1, 0), (2, 5), (3, -5), (4, 30)] 24).Pairwise (fun J K => J.2.1 < K.1) :=
  (claim_C9 [((1 : Nat), (0 : Rat)), (2, 10), (3, -10), (4, -20)]
    [(1, 0), (2, 5), (3, -5), (4, 30)] 24 (by decide) (by decide)).1
